import Mathlib

/-!
Verification of the financial-data generation pipeline
(`src/generate_financial_data.py`, class `FinancialDataGenerator`).

The Python program is embedded shallowly:

* the records produced by the generation tiers become Lean structures
  (`UserData`, `AccountData`, `TxnData`);
* the PostgreSQL connection used by `insert_data` is modelled by an oracle
  (`InsertOracle`) giving the database's reply to each command in order
  (a returned serial id, or a raise), and `insert_data` is a function from
  its inputs and that oracle to the list of commands it issues on the
  connection (`DBEvent`) together with a success flag;
* the Anthropic client is modelled by a function from the request the code
  builds (`Request`: model name, max_tokens, temperature, messages) to the
  parsed JSON payload, `none` standing for a raised error (network failure
  or malformed JSON);
* `create_tables` is modelled by executing the three DDL statements against
  a list of existing tables, where a plain `CREATE TABLE` on an existing
  name errors and `CREATE TABLE IF NOT EXISTS` does not;
* `generate_all_data` is the sequential composition of the above, emitting
  a run-level trace (`RunEvent`).
-/

/-- A user profile as parsed from the model's JSON reply and consumed by
`insert_data` (fields `name`, `age`, `occupation`, `income_bracket`). -/
structure UserData where
  name : String
  age : Int
  occupation : String
  income_bracket : String
deriving DecidableEq, Repr

/-- An account record as parsed from the model's JSON reply
(fields `account_type`, `institution`, `current_balance`).
`DECIMAL(15,2)` amounts are modelled as integer cents. -/
structure AccountData where
  account_type : String
  institution : String
  current_balance : Int
deriving DecidableEq, Repr

/-- A transaction record as parsed from the model's JSON reply
(fields `date`, `amount`, `category`, `merchant_name`, `transaction_type`). -/
structure TxnData where
  date : String
  amount : Int
  category : String
  merchant_name : String
  transaction_type : String
deriving DecidableEq, Repr

/-- A row of the `accounts` table as written by `insert_data`
(the database-assigned `account_id` is not part of the insert). -/
structure AccountRow where
  user_id : Nat
  account_type : String
  institution : String
  current_balance : Int
deriving DecidableEq, Repr

/-- A row of the `transactions` table as written by `insert_data`. -/
structure TxnRow where
  account_id : Nat
  date : String
  amount : Int
  category : String
  merchant_name : String
  transaction_type : String
deriving DecidableEq, Repr

/-- The tuple `(account_id, txn["date"], txn["amount"], txn["category"],
txn["merchant_name"], txn["transaction_type"])` built by the list
comprehension inside `insert_data`. -/
def txnRow (aid : Nat) (t : TxnData) : TxnRow :=
  ⟨aid, t.date, t.amount, t.category, t.merchant_name, t.transaction_type⟩

/-- The values tuple of the `INSERT INTO accounts` statement in
`insert_data`: the captured `user_id` followed by the account's fields. -/
def accountRow (uid : Nat) (a : AccountData) : AccountRow :=
  ⟨uid, a.account_type, a.institution, a.current_balance⟩

/-- One command issued by `insert_data` on its psycopg2 connection/cursor. -/
inductive DBEvent where
  /-- `INSERT INTO users ... RETURNING user_id` -/
  | insUser (u : UserData)
  /-- `INSERT INTO accounts ... RETURNING account_id` -/
  | insAccount (r : AccountRow)
  /-- `execute_values` bulk `INSERT INTO transactions` -/
  | insTxns (rs : List TxnRow)
  /-- `conn.commit()` -/
  | commit
  /-- `cur.close()` (in the `finally` block) -/
  | closeCursor
  /-- `conn.close()` (in the `finally` block) -/
  | closeConn
deriving DecidableEq, Repr

/-- The database's replies to the commands of one `insert_data` call:
the id fetched after the user insert (`none` = the statement raised),
the id fetched after the k-th account insert, and whether the k-th bulk
transaction insert succeeded. -/
structure InsertOracle where
  userId : Option Nat
  accountId : Nat → Option Nat
  txnsOk : Nat → Bool

/-- The `for account in accounts_data:` loop of `insert_data`, processing
the remaining accounts starting at loop index `k` with the captured
`user_id` `uid`.  For each account it issues the account insert and then a
bulk insert of `txns` (the caller's whole flattened `transactions_data`)
tagged with the freshly captured `account_id`.  Returns the commands issued
and whether the loop completed without a raise. -/
def insertAccountsLoop (o : InsertOracle) (uid : Nat) (txns : List TxnData) :
    Nat → List AccountData → List DBEvent × Bool
  | _, [] => ([], true)
  | k, a :: rest =>
    let ev := DBEvent.insAccount (accountRow uid a)
    match o.accountId k with
    | none => ([ev], false)
    | some aid =>
      let tev := DBEvent.insTxns (txns.map (txnRow aid))
      if o.txnsOk k then
        let r := insertAccountsLoop o uid txns (k + 1) rest
        (ev :: tev :: r.1, r.2)
      else
        ([ev, tev], false)

/-- `FinancialDataGenerator.insert_data`: insert the user (capturing
`user_id`), then for each account insert it (capturing `account_id`) and
bulk-insert the flattened transaction list under that id, then commit; the
`finally` block closes cursor and connection on every path.  Returns the
commands issued on the connection and whether the call succeeded. -/
def insert_data (o : InsertOracle) (u : UserData) (accs : List AccountData)
    (txns : List TxnData) : List DBEvent × Bool :=
  let body :=
    match o.userId with
    | none => ([DBEvent.insUser u], false)
    | some uid =>
      let r := insertAccountsLoop o uid txns 0 accs
      (DBEvent.insUser u :: r.1, r.2)
  (body.1 ++ (if body.2 then [DBEvent.commit] else [])
    ++ [DBEvent.closeCursor, DBEvent.closeConn], body.2)

/-- Whether a connection command is a row insert (as opposed to the
commit or the closing of cursor/connection). -/
def DBEvent.isInsert : DBEvent → Bool
  | DBEvent.insUser _ => true
  | DBEvent.insAccount _ => true
  | DBEvent.insTxns _ => true
  | _ => false

/-- The rows of the current call that are committed on the connection:
the insert commands issued, when the final `conn.commit()` ran; nothing
otherwise (psycopg2 discards the uncommitted transaction when the
connection closes). -/
def committedRows (r : List DBEvent × Bool) : List DBEvent :=
  if r.2 then r.1.filter DBEvent.isInsert else []

/-! ## The generation client (`anthropic` messages API) -/

/-- One element of the `messages` list of an API request. -/
structure Message where
  role : String
  content : String
deriving DecidableEq, Repr

/-- A `self.client.messages.create(...)` request as the code builds it:
model identifier, `max_tokens`, `temperature`, and the messages list.
`temperature` is a rational (`0.7` everywhere in the code). -/
structure Request where
  model : String
  max_tokens : Nat
  temperature : ℚ
  messages : List Message
deriving DecidableEq, Repr

/-- The prompt of `generate_user_profile`.  The Python source builds it
with an f-string that interpolates nothing: the text is one constant,
independent of the method's `index` argument. -/
def profilePrompt : String :=
  "Generate a realistic user profile for financial data analysis with the following details in JSON format:\n" ++
  "        - A realistic full name\n" ++
  "        - Age (between 25-75)\n" ++
  "        - Occupation\n" ++
  "        - Income bracket (one of: \"25k-50k\", \"50k-75k\", \"75k-100k\", \"100k-150k\", \"150k+\")\n" ++
  "        Make it realistic and varied."

/-- The request sent by `generate_user_profile(self, index)`.  The `index`
parameter appears in the Python signature but flows into neither the prompt
nor any other field of the request. -/
def profileRequestFor (_index : Nat) : Request :=
  { model := "claude-3-sonnet-20240229"
  , max_tokens := 300
  , temperature := 7 / 10
  , messages := [⟨"user", profilePrompt⟩] }

/-- `FinancialDataGenerator.generate_user_profile`: send the fixed profile
prompt and return the parsed JSON reply.  `send` models the remote call
composed with `json.loads`; `none` is a raised error (network failure or
malformed JSON). -/
def generate_user_profile (send : Request → Option UserData) (index : Nat) :
    Option UserData :=
  send (profileRequestFor index)

/-- The prompt of `generate_accounts`, interpolating the profile's
`income_bracket` as the f-string does. -/
def accountsPrompt (user_profile : UserData) : String :=
  let income := user_profile.income_bracket
  s!"Generate realistic bank account data for a person with income {income} in JSON format.\n" ++
  "        Include 2-4 accounts with:\n" ++
  "        - account_type (checking, savings, credit_card, investment)\n" ++
  "        - institution (use realistic bank names)\n" ++
  "        - current_balance (make it realistic based on income and account type)\n" ++
  "        Return as a list of account objects."

/-- The request sent by `generate_accounts`. -/
def accountsRequestFor (user_profile : UserData) : Request :=
  { model := "claude-3-sonnet-20240229"
  , max_tokens := 500
  , temperature := 7 / 10
  , messages := [⟨"user", accountsPrompt user_profile⟩] }

/-- `FinancialDataGenerator.generate_accounts`: send the accounts prompt
built from the profile and return the parsed JSON reply unchanged — the
code performs no validation of the list's length or of the
`account_type` fields. -/
def generate_accounts (send : Request → Option (List AccountData))
    (user_profile : UserData) : Option (List AccountData) :=
  send (accountsRequestFor user_profile)

/-- The prompt of `generate_transactions`, interpolating the account's
`account_type` and `current_balance` and the profile's `income_bracket`. -/
def transactionsPrompt (account : AccountData) (user_profile : UserData) : String :=
  let atype := account.account_type
  let bal := account.current_balance
  let income := user_profile.income_bracket
  s!"Generate 2 years of realistic transactions for a {atype} account \n" ++
  s!"        with current balance \x24{bal} for a person with income {income}.\n" ++
  "        Include:\n" ++
  "        - date (between 2022-01-01 and 2023-12-31)\n" ++
  "        - amount\n" ++
  "        - category\n" ++
  "        - merchant_name\n" ++
  "        - transaction_type (debit/credit)\n" ++
  "        Make transactions realistic based on account type and balance. Return as JSON list."

/-- The request sent by `generate_transactions`. -/
def transactionsRequestFor (account : AccountData) (user_profile : UserData) :
    Request :=
  { model := "claude-3-sonnet-20240229"
  , max_tokens := 1000
  , temperature := 7 / 10
  , messages := [⟨"user", transactionsPrompt account user_profile⟩] }

/-- `FinancialDataGenerator.generate_transactions`: send the transactions
prompt and return the parsed JSON reply. -/
def generate_transactions (send : Request → Option (List TxnData))
    (account : AccountData) (user_profile : UserData) : Option (List TxnData) :=
  send (transactionsRequestFor account user_profile)

/-- The four account types enumerated by the spec and by the prompt. -/
def validAccountType (s : String) : Bool :=
  s = "checking" || s = "savings" || s = "credit_card" || s = "investment"

/-- The spec's testable property for a generated accounts list: between 2
and 4 accounts, each with an enumerated `account_type`. -/
def validAccountsList (l : List AccountData) : Bool :=
  2 ≤ l.length && l.length ≤ 4 && l.all (fun a => validAccountType a.account_type)

/-! ## Database connection parameters (`__init__`) -/

/-- The process environment, as `os.getenv` sees it. -/
def Env : Type := String → Option String

/-- `os.getenv(name, default)`: the variable's value if set, otherwise the
default. -/
def getenv (env : Env) (name default : String) : String :=
  (env name).getD default

/-- The `self.db_params` dictionary. -/
structure DBParams where
  dbname : String
  user : String
  password : String
  host : String
  port : String
deriving DecidableEq, Repr

/-- `FinancialDataGenerator.__init__`: resolve each connection parameter
from its own environment variable with its documented default. -/
def db_params (env : Env) : DBParams :=
  { dbname := getenv env "DB_NAME" "financial_data"
  , user := getenv env "DB_USER" "postgres"
  , password := getenv env "DB_PASSWORD" "postgres"
  , host := getenv env "DB_HOST" "localhost"
  , port := getenv env "DB_PORT" "5432" }

/-! ## Schema initialization (`create_tables`) -/

/-- One column of a `CREATE TABLE` statement: name and declared type
(constraints kept in the type text). -/
structure Column where
  name : String
  decl : String
deriving DecidableEq, Repr

/-- A table of the relational schema. -/
structure Table where
  name : String
  columns : List Column
deriving DecidableEq, Repr

/-- The `users` table as declared in `create_tables`. -/
def usersTable : Table :=
  ⟨"users",
   [⟨"user_id", "SERIAL PRIMARY KEY"⟩,
    ⟨"name", "VARCHAR(100)"⟩,
    ⟨"age", "INTEGER"⟩,
    ⟨"occupation", "VARCHAR(100)"⟩,
    ⟨"income_bracket", "VARCHAR(50)"⟩]⟩

/-- The `accounts` table as declared in `create_tables`. -/
def accountsTable : Table :=
  ⟨"accounts",
   [⟨"account_id", "SERIAL PRIMARY KEY"⟩,
    ⟨"user_id", "INTEGER REFERENCES users(user_id)"⟩,
    ⟨"account_type", "VARCHAR(50)"⟩,
    ⟨"institution", "VARCHAR(100)"⟩,
    ⟨"current_balance", "DECIMAL(15,2)"⟩]⟩

/-- The `transactions` table as declared in `create_tables`. -/
def transactionsTable : Table :=
  ⟨"transactions",
   [⟨"transaction_id", "SERIAL PRIMARY KEY"⟩,
    ⟨"account_id", "INTEGER REFERENCES accounts(account_id)"⟩,
    ⟨"date", "TIMESTAMP"⟩,
    ⟨"amount", "DECIMAL(15,2)"⟩,
    ⟨"category", "VARCHAR(100)"⟩,
    ⟨"merchant_name", "VARCHAR(200)"⟩,
    ⟨"transaction_type", "VARCHAR(50)"⟩]⟩

/-- A DDL statement: `CREATE TABLE` with or without `IF NOT EXISTS`. -/
inductive DDL where
  | createTable (ifNotExists : Bool) (t : Table)
deriving DecidableEq, Repr

/-- Execute one DDL statement against the list of existing tables.
`CREATE TABLE` on an existing name is a duplicate-table error;
`CREATE TABLE IF NOT EXISTS` on an existing name is a no-op. -/
def execDDL (d : DDL) (s : List Table) : Except String (List Table) :=
  match d with
  | DDL.createTable ifNotExists t =>
    if s.any (fun t2 => t2.name = t.name) then
      if ifNotExists then Except.ok s
      else Except.error ("relation already exists: " ++ t.name)
    else Except.ok (s ++ [t])

/-- `FinancialDataGenerator.create_tables`: run the three
`CREATE TABLE IF NOT EXISTS` statements in order (users, accounts,
transactions) against the current schema; an error result models a raised
database exception. -/
def create_tables (s : List Table) : Except String (List Table) :=
  (execDDL (DDL.createTable true usersTable) s).bind fun s1 =>
  (execDDL (DDL.createTable true accountsTable) s1).bind fun s2 =>
  execDDL (DDL.createTable true transactionsTable) s2

/-! ## The orchestrator (`generate_all_data`) -/

/-- The oracles for one whole run: the parsed reply of each profile
request (indexed by the user's loop index), of each accounts request, of
each transactions request, and the database's replies for the i-th user's
`insert_data` call. -/
structure RunOracle where
  profile : Nat → Option UserData
  accounts : UserData → Option (List AccountData)
  txns : AccountData → UserData → Option (List TxnData)
  insert : Nat → InsertOracle

/-- One observable step of `generate_all_data`. -/
inductive RunEvent where
  /-- the `create_tables()` call -/
  | schemaInit
  /-- `print(f"Generating data for user i+1/num_users")` -/
  | progressStart (i : Nat) (n : Nat)
  /-- the `generate_user_profile(i)` call -/
  | genProfile (i : Nat)
  /-- the `generate_accounts(user_profile)` call -/
  | genAccounts (i : Nat)
  /-- the `generate_transactions(account, user_profile)` call for the
  k-th account of user i -/
  | genTxns (i : Nat) (k : Nat)
  /-- the `insert_data(...)` call for user i, with the commands it issued
  and its success flag -/
  | persist (i : Nat) (r : List DBEvent × Bool)
  /-- `print(f"Completed user i+1")` -/
  | progressDone (i : Nat)
deriving DecidableEq, Repr

/-- The `for account in accounts:` generation loop of one iteration of
`generate_all_data`, from the k-th account on: one `generate_transactions`
call per account, extending `all_transactions`.  Returns the calls made
and, when none raised, the flattened list. -/
def genTxnsLoop (o : RunOracle) (p : UserData) (i : Nat) :
    Nat → List AccountData → List RunEvent × Option (List TxnData)
  | _, [] => ([], some [])
  | k, a :: rest =>
    let ev := RunEvent.genTxns i k
    match o.txns a p with
    | none => ([ev], none)
    | some ts =>
      let r := genTxnsLoop o p i (k + 1) rest
      (ev :: r.1, r.2.map (fun rest2 => ts ++ rest2))

/-- One iteration of the `for i in range(num_users):` loop of
`generate_all_data`: progress line, profile generation, accounts
generation, one transactions generation per account, `insert_data` with
the full aggregate, completion line.  Returns the events of the iteration
and whether it completed without a raise. -/
def userStep (o : RunOracle) (n i : Nat) : List RunEvent × Bool :=
  let evs0 := [RunEvent.progressStart i n, RunEvent.genProfile i]
  match o.profile i with
  | none => (evs0, false)
  | some p =>
    let evs1 := evs0 ++ [RunEvent.genAccounts i]
    match o.accounts p with
    | none => (evs1, false)
    | some accs =>
      let tr := genTxnsLoop o p i 0 accs
      let evs2 := evs1 ++ tr.1
      match tr.2 with
      | none => (evs2, false)
      | some allTxns =>
        let ir := insert_data (o.insert i) p accs allTxns
        if ir.2 then
          (evs2 ++ [RunEvent.persist i ir, RunEvent.progressDone i], true)
        else
          (evs2 ++ [RunEvent.persist i ir], false)

/-- The user loop of `generate_all_data`, processing `fuel` remaining
users starting at index `i`: run an iteration; if it raised, stop (the
exception propagates and the remaining iterations never run). -/
def runUsers (o : RunOracle) (n : Nat) : Nat → Nat → List RunEvent × Bool
  | _, 0 => ([], true)
  | i, fuel + 1 =>
    let r := userStep o n i
    if r.2 then
      let r2 := runUsers o n (i + 1) fuel
      (r.1 ++ r2.1, r2.2)
    else
      (r.1, false)

/-- `FinancialDataGenerator.generate_all_data(num_users)`: initialize the
schema, then run the sequential per-user loop. -/
def generate_all_data (o : RunOracle) (num_users : Nat) : List RunEvent × Bool :=
  let r := runUsers o num_users 0 num_users
  (RunEvent.schemaInit :: r.1, r.2)

/-- The rows committed in the database at the end of a run: each
`insert_data` call runs on its own connection and commits (or discards)
only its own inserts, so the run's committed rows are the concatenation of
each persist step's committed rows. -/
def runCommitted (evs : List RunEvent) : List DBEvent :=
  (evs.map (fun e =>
    match e with
    | RunEvent.persist _ r => committedRows r
    | _ => [])).flatten

/-! ## Concrete test data (the spec's end-to-end scenario, extended) -/

/-- The fixed profile of the spec's end-to-end scenario. -/
def janeUser : UserData := ⟨"Jane Doe", 34, "Engineer", "75k-100k"⟩

/-- The fixed checking account of the spec's end-to-end scenario. -/
def janeAccount : AccountData := ⟨"checking", "Test Bank", 100000⟩

/-- A second account, used to exercise multi-account behaviour. -/
def janeAccount2 : AccountData := ⟨"savings", "Ally", 1200000⟩

/-- The fixed transaction of the spec's end-to-end scenario,
generated for the checking account. -/
def janeTxn : TxnData := ⟨"2023-01-15", -5000, "groceries", "Store", "debit"⟩

/-- A transaction generated for the savings account. -/
def janeTxn2 : TxnData := ⟨"2023-02-01", 20000, "interest", "Ally", "credit"⟩

/-- A database oracle on which every command succeeds: the user insert
returns id 1, the k-th account insert returns id 10 + k. -/
def oAll : InsertOracle := ⟨some 1, fun k => some (10 + k), fun _ => true⟩

/-- A database oracle on which already the user insert raises. -/
def oRaise : InsertOracle := ⟨none, fun _ => none, fun _ => false⟩

/-- A run oracle on which every call succeeds, producing the end-to-end
scenario's data for every user. -/
def oRun : RunOracle :=
  ⟨fun _ => some janeUser, fun _ => some [janeAccount],
   fun _ _ => some [janeTxn], fun _ => oAll⟩

/-- A run oracle on which every profile generation raises. -/
def oRunFail : RunOracle :=
  ⟨fun _ => none, fun _ => some [janeAccount],
   fun _ _ => some [janeTxn], fun _ => oAll⟩

/-- A compliant accounts reply: two accounts, enumerated types. -/
def goodAccountsList : List AccountData := [janeAccount, janeAccount2]

/-- A non-compliant accounts reply: five accounts, one of a type outside
the enumeration. -/
def badAccountsList : List AccountData :=
  [⟨"checking", "B1", 1⟩, ⟨"savings", "B2", 1⟩, ⟨"credit_card", "B3", 1⟩,
   ⟨"investment", "B4", 1⟩, ⟨"crypto", "B5", 1⟩]

/-- The effect of one `CREATE TABLE IF NOT EXISTS` on the schema: append
the table when no table of that name exists, otherwise leave the schema
unchanged. -/
def addT (t : Table) (s : List Table) : List Table :=
  if s.any (fun t2 => t2.name = t.name) then s else s ++ [t]

/-- The interleaved per-account command sequence of a successful
`insert_data` call: for the k-th account (paired with its captured id
`aids[k]`), the account insert carrying the captured `user_id`, directly
followed by the bulk transaction insert carrying that account's freshly
captured id. -/
def persistSegments (uid : Nat) (aids : List Nat) (accs : List AccountData)
    (txns : List TxnData) : List DBEvent :=
  ((aids.zip accs).map (fun pr =>
    [DBEvent.insAccount (accountRow uid pr.2),
     DBEvent.insTxns (txns.map (txnRow pr.1))])).flatten

/-! ## Theorems -/

/-- C7: each of the three generation call sites sends its request with the
fixed configuration for its tier: `max_tokens` 300 and temperature 0.7 for
profile generation, 500 and 0.7 for accounts generation, 1000 and 0.7 for
transactions generation, on every invocation. -/
theorem generation_request_configs (sendP : Request → Option UserData)
    (sendA : Request → Option (List AccountData))
    (sendT : Request → Option (List TxnData))
    (index : Nat) (p : UserData) (a : AccountData) :
    generate_user_profile sendP index = sendP (profileRequestFor index) ∧
    (profileRequestFor index).max_tokens = 300 ∧
    (profileRequestFor index).temperature = 7 / 10 ∧
    generate_accounts sendA p = sendA (accountsRequestFor p) ∧
    (accountsRequestFor p).max_tokens = 500 ∧
    (accountsRequestFor p).temperature = 7 / 10 ∧
    generate_transactions sendT a p = sendT (transactionsRequestFor a p) ∧
    (transactionsRequestFor a p).max_tokens = 1000 ∧
    (transactionsRequestFor a p).temperature = 7 / 10 :=
  ⟨rfl, rfl, rfl, rfl, rfl, rfl, rfl, rfl, rfl⟩

/-- C10: `generate_user_profile` is independent of its `index` argument:
for any two indices the request sent to the model (and in particular its
prompt) is identical, and against the same model behaviour the returned
profile is identical. -/
theorem generate_user_profile_index_independent
    (send : Request → Option UserData) (i j : Nat) :
    profileRequestFor i = profileRequestFor j ∧
    generate_user_profile send i = generate_user_profile send j :=
  ⟨rfl, rfl⟩

/-- C8: each database connection parameter is resolved from its own
environment variable (`DB_NAME`, `DB_USER`, `DB_PASSWORD`, `DB_HOST`,
`DB_PORT`); an absent variable yields the documented default
(`financial_data`, `postgres`, `postgres`, `localhost`, `5432`), a present
one yields its value, and each parameter depends on no other variable. -/
theorem db_params_env_resolution (env env2 : Env) :
    (env "DB_NAME" = none → (db_params env).dbname = "financial_data") ∧
    (env "DB_USER" = none → (db_params env).user = "postgres") ∧
    (env "DB_PASSWORD" = none → (db_params env).password = "postgres") ∧
    (env "DB_HOST" = none → (db_params env).host = "localhost") ∧
    (env "DB_PORT" = none → (db_params env).port = "5432") ∧
    (∀ v, env "DB_NAME" = some v → (db_params env).dbname = v) ∧
    (∀ v, env "DB_USER" = some v → (db_params env).user = v) ∧
    (∀ v, env "DB_PASSWORD" = some v → (db_params env).password = v) ∧
    (∀ v, env "DB_HOST" = some v → (db_params env).host = v) ∧
    (∀ v, env "DB_PORT" = some v → (db_params env).port = v) ∧
    (env "DB_NAME" = env2 "DB_NAME" →
      (db_params env).dbname = (db_params env2).dbname) ∧
    (env "DB_USER" = env2 "DB_USER" →
      (db_params env).user = (db_params env2).user) ∧
    (env "DB_PASSWORD" = env2 "DB_PASSWORD" →
      (db_params env).password = (db_params env2).password) ∧
    (env "DB_HOST" = env2 "DB_HOST" →
      (db_params env).host = (db_params env2).host) ∧
    (env "DB_PORT" = env2 "DB_PORT" →
      (db_params env).port = (db_params env2).port) := by
  refine ⟨?_, ?_, ?_, ?_, ?_, ?_, ?_, ?_, ?_, ?_, ?_, ?_, ?_, ?_, ?_⟩ <;>
    first
      | (intro h; simp [db_params, getenv, h])
      | (intro v h; simp [db_params, getenv, h])

/-- C8 witness: on the empty environment every parameter is its default,
and on a singleton environment only the matching parameter changes. -/
theorem db_params_env_resolution_witness :
    (db_params (fun _ => none)).dbname = "financial_data" ∧
    (db_params (fun _ => none)).user = "postgres" ∧
    (db_params (fun _ => none)).password = "postgres" ∧
    (db_params (fun _ => none)).host = "localhost" ∧
    (db_params (fun _ => none)).port = "5432" ∧
    (db_params (fun v => if v = "DB_HOST" then some "db.internal" else none)).host
      = "db.internal" ∧
    (db_params (fun v => if v = "DB_HOST" then some "db.internal" else none)).port
      = (db_params (fun _ => none)).port := by
  obtain ⟨h1, h2, h3, h4, h5, -⟩ :=
    db_params_env_resolution (fun _ => none) (fun _ => none)
  obtain ⟨-, -, -, -, -, -, -, -, hHost, -, -, -, -, -, hPort⟩ :=
    db_params_env_resolution
      (fun v => if v = "DB_HOST" then some "db.internal" else none) (fun _ => none)
  exact ⟨h1 rfl, h2 rfl, h3 rfl, h4 rfl, h5 rfl, hHost "db.internal" rfl, hPort rfl⟩

/-- C9: calling `insert_data` with an empty accounts list still inserts
exactly one user row and commits; no account and no transaction row is
written, however many records the flattened transaction list holds. -/
theorem insert_data_empty_accounts (o : InsertOracle) (u : UserData)
    (txns : List TxnData) (uid : Nat) (h : o.userId = some uid) :
    insert_data o u [] txns =
      ([DBEvent.insUser u, DBEvent.commit, DBEvent.closeCursor,
        DBEvent.closeConn], true) ∧
    committedRows (insert_data o u [] txns) = [DBEvent.insUser u] := by
  constructor
  · simp [insert_data, insertAccountsLoop, h]
  · simp [insert_data, insertAccountsLoop, h, committedRows, List.filter,
      DBEvent.isInsert]

/-- C9 witness: the concrete scenario with no accounts and a nonempty
flattened transaction list. -/
theorem insert_data_empty_accounts_witness :
    insert_data oAll janeUser [] [janeTxn, janeTxn2] =
      ([DBEvent.insUser janeUser, DBEvent.commit, DBEvent.closeCursor,
        DBEvent.closeConn], true) ∧
    committedRows (insert_data oAll janeUser [] [janeTxn, janeTxn2]) =
      [DBEvent.insUser janeUser] :=
  insert_data_empty_accounts oAll janeUser [janeTxn, janeTxn2] 1 rfl

lemma execDDL_ifNotExists (t : Table) (s : List Table) :
    execDDL (DDL.createTable true t) s = Except.ok (addT t s) := by
  simp only [execDDL, addT]
  split <;> rfl

lemma hasName_addT_self (t : Table) (s : List Table) :
    (addT t s).any (fun t2 => t2.name = t.name) = true := by
  unfold addT
  split
  · assumption
  · simp [List.any_append]

lemma hasName_addT_mono (t t' : Table) (s : List Table)
    (h : s.any (fun t2 => t2.name = t'.name) = true) :
    (addT t s).any (fun t2 => t2.name = t'.name) = true := by
  unfold addT
  split
  · exact h
  · simp [List.any_append, h]

lemma addT_of_hasName (t : Table) (s : List Table)
    (h : s.any (fun t2 => t2.name = t.name) = true) : addT t s = s := by
  unfold addT
  simp [h]

lemma nodup_addT (t : Table) (s : List Table)
    (h : (s.map Table.name).Nodup) : ((addT t s).map Table.name).Nodup := by
  unfold addT
  split
  · exact h
  · rename_i hany
    simp only [List.any_eq_true, decide_eq_true_eq] at hany
    push_neg at hany
    simp only [List.map_append, List.map_cons, List.map_nil]
    rw [List.nodup_append]
    refine ⟨h, List.nodup_singleton _, ?_⟩
    intro x hx hx2
    simp only [List.mem_singleton] at hx2
    obtain ⟨t2, ht2, hname⟩ := List.mem_map.mp hx
    exact hany t2 ht2 (hname.trans hx2)

lemma create_tables_eq (s : List Table) :
    create_tables s =
      Except.ok (addT transactionsTable (addT accountsTable (addT usersTable s))) := by
  simp [create_tables, execDDL_ifNotExists, Except.bind]

/-- C4: `create_tables` is idempotent: the first call succeeds, a second
call on the resulting schema succeeds, changes nothing (the same three
tables as after one call), and — when table names were unique before —
introduces no duplicate table. -/
theorem create_tables_idempotent (s : List Table) :
    ∃ s1, create_tables s = Except.ok s1 ∧
      create_tables s1 = Except.ok s1 ∧
      ((s.map Table.name).Nodup → (s1.map Table.name).Nodup) := by
  refine ⟨addT transactionsTable (addT accountsTable (addT usersTable s)),
    create_tables_eq s, ?_, ?_⟩
  · rw [create_tables_eq]
    have hu : (addT transactionsTable (addT accountsTable (addT usersTable s))).any
        (fun t2 => t2.name = usersTable.name) = true :=
      hasName_addT_mono _ _ _ (hasName_addT_mono _ _ _ (hasName_addT_self _ _))
    have ha : (addT transactionsTable (addT accountsTable (addT usersTable s))).any
        (fun t2 => t2.name = accountsTable.name) = true :=
      hasName_addT_mono _ _ _ (hasName_addT_self _ _)
    have ht : (addT transactionsTable (addT accountsTable (addT usersTable s))).any
        (fun t2 => t2.name = transactionsTable.name) = true :=
      hasName_addT_self _ _
    rw [addT_of_hasName _ _ hu, addT_of_hasName _ _ ha, addT_of_hasName _ _ ht]
  · intro hn
    exact nodup_addT _ _ (nodup_addT _ _ (nodup_addT _ _ hn))

/-- C4 witness: from the empty schema, one call creates exactly the three
tables, a second call succeeds and leaves them unchanged, and their names
are distinct. -/
theorem create_tables_idempotent_witness :
    create_tables [usersTable, accountsTable, transactionsTable] =
      Except.ok [usersTable, accountsTable, transactionsTable] ∧
    ([usersTable, accountsTable, transactionsTable].map Table.name).Nodup := by
  obtain ⟨s1, h1, h2, h3⟩ := create_tables_idempotent []
  have he : s1 = [usersTable, accountsTable, transactionsTable] := by
    have : Except.ok (ε := String) [usersTable, accountsTable, transactionsTable]
        = Except.ok s1 := by rw [← h1]; rfl
    exact (Except.ok.inj this).symm
  subst he
  exact ⟨h2, h3 (by simp)⟩

/-- C6 counterexample: a model reply of five accounts, one of type
`crypto`, is returned by `generate_accounts` unchanged — the returned
list violates both the count bound [2,4] and the type enumeration. -/
theorem generate_accounts_unvalidated_cex :
    generate_accounts (fun _ => some badAccountsList) janeUser =
      some badAccountsList ∧
    validAccountsList badAccountsList = false :=
  ⟨rfl, by decide⟩

/-- C6 (amended): `generate_accounts` passes the model's parsed reply
through without validation, so the returned list has between 2 and 4
accounts with enumerated `account_type`s exactly when the model's reply
does (the prompt requests this, but no code enforces it). -/
theorem generate_accounts_compliant_passthrough
    (send : Request → Option (List AccountData)) (p : UserData)
    (h : ∀ l, send (accountsRequestFor p) = some l → validAccountsList l = true) :
    generate_accounts send p = send (accountsRequestFor p) ∧
    ∀ l, generate_accounts send p = some l → validAccountsList l = true :=
  ⟨rfl, fun l hl => h l hl⟩

/-- C6 witness: with a compliant model reply of two enumerated accounts,
the returned list satisfies the property. -/
theorem generate_accounts_compliant_passthrough_witness :
    validAccountsList goodAccountsList = true :=
  (generate_accounts_compliant_passthrough (fun _ => some goodAccountsList)
      janeUser (fun l hl => by
        injection hl with h2
        subst h2
        decide)).2
    goodAccountsList rfl

/-- C1 (code behaviour at the failing input): with two accounts whose
generated transaction batches are `[janeTxn]` and `[janeTxn2]`, the
flattened list `[janeTxn, janeTxn2]` is bulk-inserted in its entirety
under BOTH captured account ids (10 and 11): `janeTxn`, which belongs to
the first account's batch, is also written under account id 11, and the
claimed filtered batch `[txnRow 11 janeTxn2]` is never issued.  This is
the cross-account write the spec flags as a design defect. -/
theorem insert_data_cross_account_write :
    insert_data oAll janeUser [janeAccount, janeAccount2] ([janeTxn] ++ [janeTxn2]) =
      ([DBEvent.insUser janeUser,
        DBEvent.insAccount (accountRow 1 janeAccount),
        DBEvent.insTxns [txnRow 10 janeTxn, txnRow 10 janeTxn2],
        DBEvent.insAccount (accountRow 1 janeAccount2),
        DBEvent.insTxns [txnRow 11 janeTxn, txnRow 11 janeTxn2],
        DBEvent.commit, DBEvent.closeCursor, DBEvent.closeConn], true) ∧
    DBEvent.insTxns [txnRow 11 janeTxn2] ∉
      (insert_data oAll janeUser [janeAccount, janeAccount2]
        ([janeTxn] ++ [janeTxn2])).1 := by
  constructor
  · decide
  · decide

/-! ## Helper lemmas on the Persister and the run loop -/

lemma insertAccountsLoop_isInsert (o : InsertOracle) (uid : Nat)
    (txns : List TxnData) :
    ∀ (accs : List AccountData) (k : Nat) (e : DBEvent),
      e ∈ (insertAccountsLoop o uid txns k accs).1 → e.isInsert = true := by
  intro accs
  induction accs with
  | nil =>
    intro k e he
    simp [insertAccountsLoop] at he
  | cons a rest ih =>
    intro k e he
    cases hA : o.accountId k with
    | none =>
      simp [insertAccountsLoop, hA] at he
      subst he
      rfl
    | some aid =>
      cases hT : o.txnsOk k with
      | false =>
        simp [insertAccountsLoop, hA, hT] at he
        rcases he with rfl | rfl <;> rfl
      | true =>
        simp [insertAccountsLoop, hA, hT] at he
        rcases he with rfl | rfl | h
        · rfl
        · rfl
        · exact ih (k + 1) e h

lemma committedRows_of_fail (r : List DBEvent × Bool) (h : r.2 = false) :
    committedRows r = [] := by
  simp [committedRows, h]

lemma runCommitted_append (l1 l2 : List RunEvent) :
    runCommitted (l1 ++ l2) = runCommitted l1 ++ runCommitted l2 := by
  simp [runCommitted, List.map_append, List.flatten_append]

lemma runCommitted_cons (e : RunEvent) (l : List RunEvent) :
    runCommitted (e :: l) = runCommitted [e] ++ runCommitted l := by
  simp [runCommitted]

lemma runCommitted_flatten (ls : List (List RunEvent)) :
    runCommitted ls.flatten = (ls.map runCommitted).flatten := by
  induction ls with
  | nil => rfl
  | cons h t ih => simp [List.flatten_cons, runCommitted_append, ih]

lemma runCommitted_genTxnsLoop (o : RunOracle) (p : UserData) (i : Nat) :
    ∀ (accs : List AccountData) (k : Nat),
      runCommitted (genTxnsLoop o p i k accs).1 = [] := by
  intro accs
  induction accs with
  | nil =>
    intro k
    rfl
  | cons a rest ih =>
    intro k
    cases hT : o.txns a p with
    | none => simp [genTxnsLoop, hT, runCommitted]
    | some ts =>
      simp only [genTxnsLoop, hT]
      rw [runCommitted_cons, ih (k + 1)]
      rfl

lemma userStep_fail_committed (o : RunOracle) (n i : Nat)
    (h : (userStep o n i).2 = false) :
    runCommitted (userStep o n i).1 = [] := by
  cases hP : o.profile i with
  | none =>
    simp only [userStep, hP]
    rfl
  | some p =>
    cases hA : o.accounts p with
    | none =>
      simp only [userStep, hP, hA]
      rfl
    | some accs =>
      cases hT : (genTxnsLoop o p i 0 accs).2 with
      | none =>
        simp only [userStep, hP, hA, hT]
        rw [runCommitted_append, runCommitted_genTxnsLoop]
        rfl
      | some allTxns =>
        cases hI : (insert_data (o.insert i) p accs allTxns).2 with
        | false =>
          simp only [userStep, hP, hA, hT, hI]
          rw [if_neg (by simp)]
          rw [runCommitted_append, runCommitted_append, runCommitted_genTxnsLoop]
          have h1 : runCommitted ([RunEvent.progressStart i n, RunEvent.genProfile i]
              ++ [RunEvent.genAccounts i]) = [] := rfl
          have h2 : runCommitted [RunEvent.persist i
              (insert_data (o.insert i) p accs allTxns)] =
              committedRows (insert_data (o.insert i) p accs allTxns) := by
            simp [runCommitted]
          rw [h1, h2, committedRows_of_fail _ hI]
          rfl
        | true =>
          exfalso
          simp only [userStep, hP, hA, hT, hI] at h
          simp at h

lemma runUsers_shape (o : RunOracle) (n : Nat) :
    ∀ (fuel i : Nat),
      ∃ m, m ≤ fuel ∧
        ((runUsers o n i fuel).2 = true → m = fuel) ∧
        ((runUsers o n i fuel).2 = false →
          m < fuel ∧ (userStep o n (i + m)).2 = false) ∧
        (∀ j, j < m → (userStep o n (i + j)).2 = true) ∧
        (runUsers o n i fuel).1 =
          ((List.range m).map (fun j => (userStep o n (i + j)).1)).flatten
            ++ (if (runUsers o n i fuel).2 then []
                else (userStep o n (i + m)).1) := by
  intro fuel
  induction fuel with
  | zero =>
    intro i
    refine ⟨0, Nat.le_refl 0, fun _ => rfl, ?_, ?_, ?_⟩
    · intro h
      simp [runUsers] at h
    · intro j hj
      exact absurd hj (Nat.not_lt_zero j)
    · simp [runUsers]
  | succ f ih =>
    intro i
    cases hS : (userStep o n i).2 with
    | false =>
      refine ⟨0, Nat.zero_le _, ?_, ?_, ?_, ?_⟩
      · intro h
        exfalso
        simp [runUsers, hS] at h
      · intro _
        exact ⟨Nat.succ_pos f, by simpa using hS⟩
      · intro j hj
        exact absurd hj (Nat.not_lt_zero j)
      · simp [runUsers, hS]
    | true =>
      obtain ⟨m, hm, hok, hfail, hsteps, hevs⟩ := ih (i + 1)
      refine ⟨m + 1, Nat.succ_le_succ hm, ?_, ?_, ?_, ?_⟩
      · intro h
        have h2 : (runUsers o n (i + 1) f).2 = true := by
          simpa [runUsers, hS] using h
        rw [hok h2]
      · intro h
        have h2 : (runUsers o n (i + 1) f).2 = false := by
          simpa [runUsers, hS] using h
        obtain ⟨hlt, hfs⟩ := hfail h2
        refine ⟨Nat.succ_lt_succ hlt, ?_⟩
        rw [show i + (m + 1) = i + 1 + m by omega]
        exact hfs
      · intro j hj
        cases j with
        | zero => simpa using hS
        | succ j2 =>
          have hj2 : j2 < m := Nat.lt_of_succ_lt_succ hj
          have := hsteps j2 hj2
          rw [show i + (j2 + 1) = i + 1 + j2 by omega]
          exact this
      · have e1 : (runUsers o n i (f + 1)).1 =
            (userStep o n i).1 ++ (runUsers o n (i + 1) f).1 := by
          simp [runUsers, hS]
        have e2 : (runUsers o n i (f + 1)).2 = (runUsers o n (i + 1) f).2 := by
          simp [runUsers, hS]
        rw [e1, e2, hevs]
        rw [List.range_succ_eq_map]
        simp only [List.map_cons, List.flatten_cons, List.map_map]
        rw [List.append_assoc]
        have hfun : ((fun j => (userStep o n (i + j)).1) ∘ Nat.succ) =
            (fun j => (userStep o n (i + 1 + j)).1) := by
          funext j
          simp only [Function.comp]
          congr 2
          omega
        rw [hfun]
        have hi0 : i + 0 = i := Nat.add_zero i
        rw [hi0]
        have him : i + (m + 1) = i + 1 + m := by omega
        rw [him]

lemma run_committed_prefix (ro : RunOracle) (nn : Nat)
    (h : (generate_all_data ro nn).2 = false) :
    ∃ m, m < nn ∧ (∀ j, j < m → (userStep ro nn j).2 = true) ∧
      runCommitted (generate_all_data ro nn).1 =
        ((List.range m).map (fun j => runCommitted (userStep ro nn j).1)).flatten := by
  obtain ⟨m, _hm, _hok, hfail, hsteps, hevs⟩ := runUsers_shape ro nn nn 0
  have h2 : (runUsers ro nn 0 nn).2 = false := by
    simpa [generate_all_data] using h
  obtain ⟨hlt, hfs⟩ := hfail h2
  refine ⟨m, hlt, fun j hj => by simpa using hsteps j hj, ?_⟩
  have hall : (generate_all_data ro nn).1 =
      RunEvent.schemaInit :: (runUsers ro nn 0 nn).1 := rfl
  rw [hall, runCommitted_cons, hevs, h2]
  rw [if_neg (by simp)]
  rw [runCommitted_append, runCommitted_flatten, List.map_map]
  have hz : runCommitted [RunEvent.schemaInit] = [] := rfl
  have hfsz : runCommitted (userStep ro nn (0 + m)).1 = [] :=
    userStep_fail_committed ro nn (0 + m) hfs
  rw [hz, hfsz]
  simp only [List.nil_append, List.append_nil]
  congr 1
  apply List.map_congr_left
  intro j _
  simp [Function.comp, Nat.zero_add]

/-- C2: `insert_data` commits at most once, and only as the last command
before the `finally` block: the command sequence is always a prefix of
pure row inserts, followed by exactly one `conn.commit()` when no insert
raised and by no commit when one did, followed on every path (success or
raise) by `cur.close()` and `conn.close()`.  When any insert step raises,
no row of the current call is committed; and since each `insert_data` call
runs on its own connection, a run that fails leaves exactly the rows of
the previously completed users committed. -/
theorem insert_data_commit_discipline (o : InsertOracle) (u : UserData)
    (accs : List AccountData) (txns : List TxnData) :
    (∃ pre,
      (insert_data o u accs txns).1 =
        pre ++ (if (insert_data o u accs txns).2 then [DBEvent.commit] else [])
          ++ [DBEvent.closeCursor, DBEvent.closeConn] ∧
      (∀ e ∈ pre, e.isInsert = true) ∧
      DBEvent.commit ∉ pre ∧
      DBEvent.closeCursor ∉ pre ∧
      DBEvent.closeConn ∉ pre ∧
      ((insert_data o u accs txns).2 = false →
        committedRows (insert_data o u accs txns) = [])) ∧
    (∀ (ro : RunOracle) (nn : Nat), (generate_all_data ro nn).2 = false →
      ∃ m, m < nn ∧ (∀ j, j < m → (userStep ro nn j).2 = true) ∧
        runCommitted (generate_all_data ro nn).1 =
          ((List.range m).map
            (fun j => runCommitted (userStep ro nn j).1)).flatten) := by
  constructor
  · cases hU : o.userId with
    | none =>
      refine ⟨[DBEvent.insUser u], ?_, ?_, ?_, ?_, ?_, ?_⟩
      · simp [insert_data, hU]
      · intro e he
        simp at he
        subst he
        rfl
      · simp
      · simp
      · simp
      · intro h2
        exact committedRows_of_fail _ h2
    | some uid =>
      refine ⟨DBEvent.insUser u :: (insertAccountsLoop o uid txns 0 accs).1,
        ?_, ?_, ?_, ?_, ?_, ?_⟩
      · simp [insert_data, hU]
      · intro e he
        simp only [List.mem_cons] at he
        rcases he with rfl | he
        · rfl
        · exact insertAccountsLoop_isInsert o uid txns accs 0 e he
      · intro hmem
        simp only [List.mem_cons] at hmem
        rcases hmem with hmem | hmem
        · exact absurd hmem (by simp)
        · have := insertAccountsLoop_isInsert o uid txns accs 0 _ hmem
          simp [DBEvent.isInsert] at this
      · intro hmem
        simp only [List.mem_cons] at hmem
        rcases hmem with hmem | hmem
        · exact absurd hmem (by simp)
        · have := insertAccountsLoop_isInsert o uid txns accs 0 _ hmem
          simp [DBEvent.isInsert] at this
      · intro hmem
        simp only [List.mem_cons] at hmem
        rcases hmem with hmem | hmem
        · exact absurd hmem (by simp)
        · have := insertAccountsLoop_isInsert o uid txns accs 0 _ hmem
          simp [DBEvent.isInsert] at this
      · intro h2
        exact committedRows_of_fail _ h2
  · intro ro nn h
    exact run_committed_prefix ro nn h

/-- C2 witness: on a connection where the user insert raises, the failed
call commits nothing; and a run of one user whose profile generation
raises has an empty committed database. -/
theorem insert_data_commit_discipline_witness :
    committedRows (insert_data oRaise janeUser [janeAccount] [janeTxn]) = [] ∧
    runCommitted (generate_all_data oRunFail 1).1 = [] := by
  obtain ⟨⟨pre, _hsplit, _hins, _hc, _hcc, _hcn, hfailed⟩, hrun⟩ :=
    insert_data_commit_discipline oRaise janeUser [janeAccount] [janeTxn]
  refine ⟨hfailed rfl, ?_⟩
  obtain ⟨m, hm, _hpref, heq⟩ := hrun oRunFail 1 rfl
  have hm0 : m = 0 := by omega
  subst hm0
  rw [heq]
  rfl

lemma insertAccountsLoop_ok_shape (o : InsertOracle) (uid : Nat)
    (txns : List TxnData) :
    ∀ (accs : List AccountData) (k : Nat),
      (insertAccountsLoop o uid txns k accs).2 = true →
      ∃ aids : List Nat, aids.length = accs.length ∧
        (∀ j, j < accs.length → o.accountId (k + j) = aids[j]?) ∧
        (insertAccountsLoop o uid txns k accs).1 =
          persistSegments uid aids accs txns := by
  intro accs
  induction accs with
  | nil =>
    intro k _
    exact ⟨[], rfl, fun j hj => absurd hj (Nat.not_lt_zero j), rfl⟩
  | cons a rest ih =>
    intro k hok
    cases hA : o.accountId k with
    | none =>
      exfalso
      simp [insertAccountsLoop, hA] at hok
    | some aid =>
      cases hT : o.txnsOk k with
      | false =>
        exfalso
        simp [insertAccountsLoop, hA, hT] at hok
      | true =>
        have hok2 : (insertAccountsLoop o uid txns (k + 1) rest).2 = true := by
          simpa [insertAccountsLoop, hA, hT] using hok
        obtain ⟨aids, hlen, hidx, hsh⟩ := ih (k + 1) hok2
        refine ⟨aid :: aids, by simp [hlen], ?_, ?_⟩
        · intro j hj
          cases j with
          | zero => simpa using hA
          | succ j2 =>
            have hj2 : j2 < rest.length := by simpa using Nat.lt_of_succ_lt_succ hj
            have := hidx j2 hj2
            rw [show k + (j2 + 1) = k + 1 + j2 by omega]
            simpa using this
        · simp only [insertAccountsLoop, hA, hT, if_pos rfl]
          rw [hsh]
          simp [persistSegments, List.zip_cons_cons]

lemma persistSegments_mem (uid : Nat) (aids : List Nat)
    (accs : List AccountData) (txns : List TxnData) :
    ∀ e ∈ persistSegments uid aids accs txns,
      (∃ a ∈ accs, e = DBEvent.insAccount (accountRow uid a)) ∨
      (∃ aid ∈ aids, e = DBEvent.insTxns (txns.map (txnRow aid))) := by
  intro e he
  simp only [persistSegments, List.mem_flatten, List.mem_map] at he
  obtain ⟨l, ⟨pr, hpr, hl⟩, hel⟩ := he
  subst hl
  simp only [List.mem_cons, List.mem_singleton, List.not_mem_nil, or_false] at hel
  obtain ⟨haid, hacc⟩ := List.of_mem_zip hpr
  rcases hel with rfl | rfl
  · exact Or.inl ⟨pr.2, hacc, rfl⟩
  · exact Or.inr ⟨pr.1, haid, rfl⟩

/-- C3: after any successful `insert_data` call the command sequence is
exactly: the user insert first; then, per account in order, the account
insert carrying the captured `user_id` immediately followed by the bulk
transaction insert carrying that account's freshly captured id (each
database-assigned identifier is fetched — `aids[j]` answers the j-th
account insert — before being used as a foreign key); then the commit and
the closes.  Consequently every persisted account row references this
call's user row, and every persisted transaction row references an
account row persisted in this same call. -/
theorem insert_data_referential_integrity (o : InsertOracle) (u : UserData)
    (accs : List AccountData) (txns : List TxnData)
    (h : (insert_data o u accs txns).2 = true) :
    ∃ uid aids, o.userId = some uid ∧
      aids.length = accs.length ∧
      (∀ j, j < accs.length → o.accountId j = aids[j]?) ∧
      (insert_data o u accs txns).1 =
        DBEvent.insUser u :: (persistSegments uid aids accs txns
          ++ [DBEvent.commit, DBEvent.closeCursor, DBEvent.closeConn]) ∧
      (∀ r, DBEvent.insAccount r ∈ (insert_data o u accs txns).1 →
        r.user_id = uid) ∧
      (∀ rs r2, DBEvent.insTxns rs ∈ (insert_data o u accs txns).1 →
        r2 ∈ rs → r2.account_id ∈ aids) := by
  cases hU : o.userId with
  | none =>
    exfalso
    simp [insert_data, hU] at h
  | some uid =>
    have hok : (insertAccountsLoop o uid txns 0 accs).2 = true := by
      simpa [insert_data, hU] using h
    obtain ⟨aids, hlen, hidx, hsh⟩ := insertAccountsLoop_ok_shape o uid txns accs 0 hok
    have htr : (insert_data o u accs txns).1 =
        DBEvent.insUser u :: (persistSegments uid aids accs txns
          ++ [DBEvent.commit, DBEvent.closeCursor, DBEvent.closeConn]) := by
      simp [insert_data, hU, hok, hsh]
    refine ⟨uid, aids, rfl, hlen, fun j hj => by simpa using hidx j hj, htr, ?_, ?_⟩
    · intro r hr
      rw [htr] at hr
      simp only [List.mem_cons, List.mem_append, List.mem_singleton] at hr
      rcases hr with hr | hr | hr
      · exact absurd hr (by simp)
      · rcases persistSegments_mem uid aids accs txns _ hr with ⟨a, _, ha⟩ | ⟨aid, _, ha⟩
        · injection ha with h2
          rw [h2]
          rfl
        · exact absurd ha (by simp)
      · rcases hr with hr | hr | hr <;> simp at hr
    · intro rs r2 hrs hr2
      rw [htr] at hrs
      simp only [List.mem_cons, List.mem_append, List.mem_singleton] at hrs
      rcases hrs with hrs | hrs | hrs
      · exact absurd hrs (by simp)
      · rcases persistSegments_mem uid aids accs txns _ hrs with ⟨a, _, ha⟩ | ⟨aid, haid, ha⟩
        · exact absurd ha (by simp)
        · injection ha with h2
          subst h2
          obtain ⟨t, _, ht⟩ := List.mem_map.mp hr2
          rw [← ht]
          simpa [txnRow] using haid
      · rcases hrs with hrs | hrs | hrs <;> simp at hrs

/-- C3 witness: the spec's end-to-end scenario (one account, one
transaction) on an all-successful connection. -/
theorem insert_data_referential_integrity_witness :
    (insert_data oAll janeUser [janeAccount] [janeTxn]).2 = true ∧
    (∃ uid aids, oAll.userId = some uid ∧
      aids.length = ([janeAccount] : List AccountData).length ∧
      (∀ j, j < ([janeAccount] : List AccountData).length →
        oAll.accountId j = aids[j]?) ∧
      (insert_data oAll janeUser [janeAccount] [janeTxn]).1 =
        DBEvent.insUser janeUser ::
          (persistSegments uid aids [janeAccount] [janeTxn]
            ++ [DBEvent.commit, DBEvent.closeCursor, DBEvent.closeConn]) ∧
      (∀ r, DBEvent.insAccount r ∈
          (insert_data oAll janeUser [janeAccount] [janeTxn]).1 →
        r.user_id = uid) ∧
      (∀ rs r2, DBEvent.insTxns rs ∈
          (insert_data oAll janeUser [janeAccount] [janeTxn]).1 →
        r2 ∈ rs → r2.account_id ∈ aids)) :=
  ⟨rfl, insert_data_referential_integrity oAll janeUser [janeAccount] [janeTxn] rfl⟩

lemma genTxnsLoop_ok_events (o : RunOracle) (p : UserData) (i : Nat) :
    ∀ (accs : List AccountData) (k : Nat) (ts : List TxnData),
      (genTxnsLoop o p i k accs).2 = some ts →
      (genTxnsLoop o p i k accs).1 =
        (List.range accs.length).map (fun j => RunEvent.genTxns i (k + j)) := by
  intro accs
  induction accs with
  | nil =>
    intro k ts _
    simp [genTxnsLoop]
  | cons a rest ih =>
    intro k ts hts
    cases hT : o.txns a p with
    | none =>
      exfalso
      simp [genTxnsLoop, hT] at hts
    | some ts2 =>
      have hex : ∃ ts3, (genTxnsLoop o p i (k + 1) rest).2 = some ts3 := by
        cases hR : (genTxnsLoop o p i (k + 1) rest).2 with
        | none =>
          exfalso
          simp [genTxnsLoop, hT, hR] at hts
        | some ts3 => exact ⟨ts3, rfl⟩
      obtain ⟨ts3, hR⟩ := hex
      have h1 := ih (k + 1) ts3 hR
      simp only [genTxnsLoop, hT, List.length_cons]
      rw [h1, List.range_succ_eq_map]
      simp only [List.map_cons, List.map_map]
      congr 1
      apply List.map_congr_left
      intro j hj
      show RunEvent.genTxns i (k + 1 + j) = RunEvent.genTxns i (k + (j + 1))
      congr 1
      omega

lemma userStep_ok_shape (o : RunOracle) (n i : Nat)
    (h : (userStep o n i).2 = true) :
    ∃ p accs ts, o.profile i = some p ∧ o.accounts p = some accs ∧
      (genTxnsLoop o p i 0 accs).2 = some ts ∧
      (insert_data (o.insert i) p accs ts).2 = true ∧
      (userStep o n i).1 =
        [RunEvent.progressStart i n, RunEvent.genProfile i,
          RunEvent.genAccounts i]
          ++ (List.range accs.length).map (RunEvent.genTxns i)
          ++ [RunEvent.persist i (insert_data (o.insert i) p accs ts),
              RunEvent.progressDone i] := by
  cases hP : o.profile i with
  | none =>
    exfalso
    simp [userStep, hP] at h
  | some p =>
    cases hA : o.accounts p with
    | none =>
      exfalso
      simp [userStep, hP, hA] at h
    | some accs =>
      cases hT : (genTxnsLoop o p i 0 accs).2 with
      | none =>
        exfalso
        simp [userStep, hP, hA, hT] at h
      | some ts =>
        cases hI : (insert_data (o.insert i) p accs ts).2 with
        | false =>
          exfalso
          simp [userStep, hP, hA, hT, hI] at h
        | true =>
          refine ⟨p, accs, ts, rfl, hA, hT, hI, ?_⟩
          simp only [userStep, hP, hA, hT, hI]
          rw [if_pos (by simp)]
          rw [genTxnsLoop_ok_events o p i accs 0 ts hT]
          simp [List.append_assoc, Nat.zero_add]

/-- C5: `generate_all_data` first initializes the schema, then runs up to
n sequential iterations in index order.  Some count m of leading
iterations complete (m = n exactly when the run succeeds); the trace is
the schema init followed by the concatenated per-iteration segments, plus
— when the run fails — the events of the failing iteration m and nothing
for any later user; and each completed iteration's segment is, in order:
the progress line, the profile generation, the accounts generation, one
transaction generation per account, the persist call with the full
aggregate, and the completion line. -/
theorem generate_all_data_sequential (o : RunOracle) (n : Nat) :
    ∃ m, m ≤ n ∧
      ((generate_all_data o n).2 = true → m = n) ∧
      ((generate_all_data o n).2 = false →
        m < n ∧ (userStep o n m).2 = false) ∧
      (∀ i, i < m → (userStep o n i).2 = true) ∧
      (generate_all_data o n).1 =
        RunEvent.schemaInit ::
          (((List.range m).map (fun i => (userStep o n i).1)).flatten
            ++ (if (generate_all_data o n).2 then [] else (userStep o n m).1)) ∧
      (∀ i, i < m → ∃ p accs ts,
        o.profile i = some p ∧ o.accounts p = some accs ∧
        (genTxnsLoop o p i 0 accs).2 = some ts ∧
        (insert_data (o.insert i) p accs ts).2 = true ∧
        (userStep o n i).1 =
          [RunEvent.progressStart i n, RunEvent.genProfile i,
            RunEvent.genAccounts i]
            ++ (List.range accs.length).map (RunEvent.genTxns i)
            ++ [RunEvent.persist i (insert_data (o.insert i) p accs ts),
                RunEvent.progressDone i]) := by
  obtain ⟨m, hm, hok, hfail, hsteps, hevs⟩ := runUsers_shape o n n 0
  refine ⟨m, hm, ?_, ?_, ?_, ?_, ?_⟩
  · intro h
    exact hok (by simpa [generate_all_data] using h)
  · intro h
    obtain ⟨hlt, hfs⟩ := hfail (by simpa [generate_all_data] using h)
    exact ⟨hlt, by simpa using hfs⟩
  · intro i hi
    simpa using hsteps i hi
  · have hg : (generate_all_data o n).1 =
        RunEvent.schemaInit :: (runUsers o n 0 n).1 := rfl
    have h2 : (generate_all_data o n).2 = (runUsers o n 0 n).2 := rfl
    rw [hg, hevs, h2]
    simp only [Nat.zero_add]
  · intro i hi
    exact userStep_ok_shape o n i (by simpa using hsteps i hi)

/-- C5 witness: a run over one user on the all-successful oracle: the
trace is the schema initialization followed by that single user's fully
ordered segment. -/
theorem generate_all_data_sequential_witness :
    (generate_all_data oRun 1).2 = true ∧
    (generate_all_data oRun 1).1 =
      RunEvent.schemaInit :: (userStep oRun 1 0).1 := by
  refine ⟨rfl, ?_⟩
  obtain ⟨m, _hm, hok, _hfail, _hsteps, hevs, _hshape⟩ :=
    generate_all_data_sequential oRun 1
  have h2 : (generate_all_data oRun 1).2 = true := rfl
  have hm1 : m = 1 := hok h2
  subst hm1
  rw [hevs, h2]
  rw [show List.range 1 = [0] by decide]
  simp
